import Mathlib

/-!
Verification of the `product_matcher` ingestion and search core
(`src/services/elasticsearch_service.py`, `src/api/v1/endpoints/search.py`).

Python values are shallowly embedded as `PyVal` (the JSON-like universe the
service manipulates: strings, ints, booleans, `None`, BSON `ObjectId`
wrappers, string-keyed dicts and lists).  Python dicts are modelled as
association lists with string keys (the universe of JSON/BSON documents the
service ingests); dict operations mirror Python semantics: lookup finds the
first binding, assignment overwrites in place or appends a fresh key.
-/

/-- Embedded Python/JSON value as handled by the service. -/
inductive PyVal where
  | str (s : String)
  | int (n : Int)
  | bool (b : Bool)
  | pyNone
  | oid (s : String)
  | dict (fields : List (String × PyVal))
  | list (elems : List PyVal)
deriving Repr

/-- Python dict with string keys, modelled as an association list. -/
abbrev PyDict := List (String × PyVal)

/-- Python `d[k]` / `k in d`: first binding of `k`, if any. -/
def alistGet {α : Type} (fs : List (String × α)) (k : String) : Option α :=
  (fs.find? (fun kv => kv.1 == k)).map (·.2)

/-- Python `d[k] = v`: overwrite an existing binding in place (keeping its
position), else append a fresh binding at the end. -/
def alistSet {α : Type} (fs : List (String × α)) (k : String) (v : α) :
    List (String × α) :=
  match fs with
  | [] => [(k, v)]
  | (k', v') :: rest =>
      if k' == k then (k, v) :: rest else (k', v') :: alistSet rest k v

/-- Python truthiness (`if attr_name:`) on embedded values. -/
def pyTruthy : PyVal → Bool
  | .str s => !(s == "")
  | .int n => !(n == 0)
  | .bool b => b
  | .pyNone => false
  | .oid _ => true
  | .dict fs => !fs.isEmpty
  | .list xs => !xs.isEmpty

/-- Whether the value is Python `None` (`attr_value is not None` checks). -/
def PyVal.isNone : PyVal → Bool
  | .pyNone => true
  | _ => false

/-- Whether the value is a Python `str`. -/
def PyVal.isStr : PyVal → Bool
  | .str _ => true
  | _ => false

/-- Python slicing `s[:n]` on a string (by characters, as Python slices). -/
def strTake (s : String) (n : Nat) : String := String.mk (s.data.take n)

/-- Python `s.strip()`: remove whitespace from both ends. -/
def pyStrip (s : String) : String :=
  String.mk (((s.data.dropWhile Char.isWhitespace).reverse.dropWhile
    Char.isWhitespace).reverse)

/-- Truncation used by the service: `s[:n] + "..."` when `len(s) > n`. -/
def truncateAt (n : Nat) (s : String) : String :=
  if n < s.length then strTake s n ++ "..." else s

mutual

/-- Approximate Python `repr` of an embedded value (used by `str` on
containers; the service only relies on its output being a string). -/
def pyRepr : PyVal → String
  | .str s => "'" ++ s ++ "'"
  | .int n => toString n
  | .bool true => "True"
  | .bool false => "False"
  | .pyNone => "None"
  | .oid s => "ObjectId('" ++ s ++ "')"
  | .dict fs => "\x7b" ++ pyReprFields fs ++ "\x7d"
  | .list xs => "[" ++ pyReprElems xs ++ "]"

/-- Renders dict entries for `pyRepr`. -/
def pyReprFields : List (String × PyVal) → String
  | [] => ""
  | [(k, v)] => "'" ++ k ++ "': " ++ pyRepr v
  | (k, v) :: rest => "'" ++ k ++ "': " ++ pyRepr v ++ ", " ++ pyReprFields rest

/-- Renders list elements for `pyRepr`. -/
def pyReprElems : List PyVal → String
  | [] => ""
  | [x] => pyRepr x
  | x :: rest => pyRepr x ++ ", " ++ pyReprElems rest

end

/-- Python `str(v)`: identity on strings, hex string of an `ObjectId`,
canonical text otherwise. -/
def pyStr : PyVal → String
  | .str s => s
  | .oid s => s
  | v => pyRepr v

mutual

/-- Field sanitizer `_validate_and_clean_data` (elasticsearch_service.py
294-327): drops `_id` keys, truncates over-long string fields at 10,000
characters with a `"..."` marker, caps lists at their first 1,000 elements
(recursing only into dict elements), recurses into nested dicts, and keeps
every other value unchanged. -/
def cleanData : PyDict → PyDict
  | [] => []
  | (k, v) :: rest =>
      if k == "_id" then cleanData rest
      else (k, cleanValue v) :: cleanData rest

/-- Per-field value cleaning performed inside `_validate_and_clean_data`. -/
def cleanValue : PyVal → PyVal
  | .str s => if 10000 < s.length then .str (strTake s 10000 ++ "...") else .str s
  | .list xs => .list (cleanElems 1000 xs)
  | .dict fs => .dict (cleanData fs)
  | v => v

/-- The `for item in value[:1000]` loop of `_validate_and_clean_data`: at
most `n` leading elements are kept, dict elements are cleaned recursively,
all other elements pass through unchanged. -/
def cleanElems : Nat → List PyVal → List PyVal
  | _, [] => []
  | 0, _ :: _ => []
  | n + 1, .dict fs :: rest => .dict (cleanData fs) :: cleanElems n rest
  | n + 1, x :: rest => x :: cleanElems n rest

end

mutual

/-- Recursive `ObjectId`-to-string conversion `_convert_objectids_to_strings`
(elasticsearch_service.py 329-338). -/
def convertVal : PyVal → PyVal
  | .oid s => .str s
  | .dict fs => .dict (convertFields fs)
  | .list xs => .list (convertElems xs)
  | v => v

/-- Dict branch of `_convert_objectids_to_strings`. -/
def convertFields : PyDict → PyDict
  | [] => []
  | (k, v) :: rest => (k, convertVal v) :: convertFields rest

/-- List branch of `_convert_objectids_to_strings`. -/
def convertElems : List PyVal → List PyVal
  | [] => []
  | x :: rest => convertVal x :: convertElems rest

end

/-- Document-id extraction `_extract_document_id` (elasticsearch_service.py
247-262): `Option.none` models the Python `return None` when `_id` is absent;
an `ObjectId` is stringified; a dict carrying an `$oid` key yields the
embedded value as-is; a plain string is returned unchanged; every other
shape (including a dict without `$oid`) is stringified. -/
def extract_document_id (d : PyDict) : Option PyVal :=
  match alistGet d "_id" with
  | Option.none => Option.none
  | some idv =>
    match idv with
    | .oid s => some (.str s)
    | .dict fs =>
        match alistGet fs "$oid" with
        | some w => some w
        | Option.none => some (.str (pyStr idv))
    | .str s => some (.str s)
    | _ => some (.str (pyStr idv))

/-- One iteration of the `for attr in prepared_data['attributes']` loop of
`_prepare_product_data` (elasticsearch_service.py 272-281): a dict element
whose `attr_name` is truthy and whose `attr_value` is not `None` contributes
the binding `attr_name ↦ str(attr_value)` truncated at 1,000 characters;
every other element contributes nothing.  (A truthy non-string `attr_name`
would create a non-string dict key in Python, which falls outside the
string-keyed dict universe of this embedding; its key is rendered through
`pyStr`.) -/
def attrEntry (a : PyVal) : Option (String × String) :=
  match a with
  | .dict fs =>
      let an := (alistGet fs "attr_name").getD .pyNone
      let av := (alistGet fs "attr_value").getD .pyNone
      if pyTruthy an && !av.isNone then
        some (pyStr an, truncateAt 1000 (pyStr av))
      else Option.none
  | _ => Option.none

/-- The `flat_attributes` accumulation loop of `_prepare_product_data`,
threading the Python dict being built (later pairs overwrite earlier ones
with the same name). -/
def buildFlatAttributes (attrs : List PyVal) (acc : List (String × String)) :
    List (String × String) :=
  match attrs with
  | [] => acc
  | a :: rest =>
      match attrEntry a with
      | some (k, v) => buildFlatAttributes rest (alistSet acc k v)
      | Option.none => buildFlatAttributes rest acc

/-- Document normalization `_prepare_product_data` (elasticsearch_service.py
264-292): derive `flat_attributes` from a list-shaped `attributes` field
(installed only when non-empty), then sanitize via
`_validate_and_clean_data`, then convert residual `ObjectId`s to strings. -/
def _prepare_product_data (d : PyDict) : PyDict :=
  let d1 :=
    match alistGet d "attributes" with
    | some (.list attrs) =>
        let fa := buildFlatAttributes attrs []
        if fa.isEmpty then d
        else alistSet d "flat_attributes"
          (.dict (fa.map (fun kv => (kv.1, PyVal.str kv.2))))
    | _ => d
  convertFields (cleanData d1)

/-- Modelled from the spec: `ensure_connection` is called by every service
operation but its definition is absent from the sources (only its call sites
exist).  Per spec §4.1 it re-establishes the connection when possible and
reports whether the engine is reachable; it is modelled by its observable
outcome, a Boolean connectivity oracle threaded into each operation. -/
def ensure_connection (connected : Bool) : Bool := connected

/-- Search response of the service's query operations: total hit count
(already normalized from the engine's bare-number/`{value}` shapes),
returned `_source` documents, and the engine-reported latency. -/
structure SearchRes where
  total : Int
  products : List PyDict
  took : Int
deriving Repr

/-- The `multi_match` query built by `search_products_by_title`
(elasticsearch_service.py 499-511). -/
def title_search_query (q : String) : PyVal :=
  .dict [("multi_match", .dict
    [("query", .str (pyStrip q)),
     ("fields", .list [.str "title^3", .str "brand^2", .str "description^1.5", .str "article"]),
     ("type", .str "best_fields"),
     ("fuzziness", .str "AUTO")])]

/-- The relevance-then-recency sort clause shared by both search modes. -/
def searchSort : PyVal :=
  .list [.dict [("_score", .dict [("order", .str "desc")])],
         .dict [("created_at", .dict [("order", .str "desc")])]]

/-- Full request body sent by `search_products_by_title`
(elasticsearch_service.py 513-521). -/
def title_full_query (q : String) (size from_ : Nat) : PyVal :=
  .dict [("query", title_search_query q), ("size", .int size),
         ("from", .int from_), ("sort", searchSort)]

/-- The `nested` query built by `search_products_by_attributes_text`
(elasticsearch_service.py 556-569). -/
def attrs_search_query (q : String) : PyVal :=
  .dict [("nested", .dict
    [("path", .str "attributes"),
     ("query", .dict [("match", .dict
        [("attributes.attr_value", .dict
           [("query", .str (pyStrip q)), ("fuzziness", .str "AUTO")])])]),
     ("inner_hits", .dict [])])]

/-- Full request body sent by `search_products_by_attributes_text`
(elasticsearch_service.py 571-579). -/
def attrs_full_query (q : String) (size from_ : Nat) : PyVal :=
  .dict [("query", attrs_search_query q), ("size", .int size),
         ("from", .int from_), ("sort", searchSort)]

/-- Title-mode search `search_products_by_title` (elasticsearch_service.py
484-539).  The engine is an oracle from the request body to a response;
the disconnected and blank-query guards return the empty result without
consulting it.  (Engine exceptions, which the source also maps to the empty
result, are outside this model.) -/
def search_products_by_title (conn : Bool) (es : PyVal → SearchRes)
    (q : String) (size from_ : Nat) : SearchRes :=
  if ensure_connection conn then
    if pyStrip q == "" then SearchRes.mk 0 [] 0
    else es (title_full_query q size from_)
  else SearchRes.mk 0 [] 0

/-- Attribute-mode search `search_products_by_attributes_text`
(elasticsearch_service.py 541-611), same oracle treatment; the per-hit
`_matched_attributes` enrichment from `inner_hits` is folded into the
oracle's response. -/
def search_products_by_attributes_text (conn : Bool) (es : PyVal → SearchRes)
    (q : String) (size from_ : Nat) : SearchRes :=
  if ensure_connection conn then
    if pyStrip q == "" then SearchRes.mk 0 [] 0
    else es (attrs_full_query q size from_)
  else SearchRes.mk 0 [] 0

/-- Abstract engine-side index state: `Option.none` when the index does not
exist, otherwise its documents keyed by id. -/
structure ESIndexState where
  index : Option (List (String × PyDict))
deriving Repr

/-- Index (re)creation `create_index` (elasticsearch_service.py 78-245):
after the connectivity guard, a pre-existing index is deleted and a fresh
empty one is created.  Engine calls are modelled as always-succeeding state
updates (engine faults, mapped to `False` by the source's `except`, are
outside this model). -/
def create_index (conn : Bool) (st : ESIndexState) : Bool × ESIndexState :=
  if ensure_connection conn then
    let afterDelete := if st.index.isSome then ESIndexState.mk Option.none else st
    (true, ESIndexState.mk (some (afterDelete.index.getD [])))
  else (false, st)

/-- Single-document ingestion `add_product` (elasticsearch_service.py
340-366) against a store keyed by document id; `genId` models the id the
engine generates when `_extract_document_id` yields `None`. -/
def add_product (conn : Bool) (genId : String)
    (store : List (String × PyDict)) (d : PyDict) :
    Bool × List (String × PyDict) :=
  if ensure_connection conn then
    let docId := extract_document_id d
    let prepared := _prepare_product_data d
    match docId with
    | some v => (true, alistSet store (pyStr v) prepared)
    | Option.none => (true, alistSet store genId prepared)
  else (false, store)

/-- Lookup `get_product_by_id` (elasticsearch_service.py 793-811): falsy
(empty) ids are rejected, a missing id (`NotFoundError`) yields `None`. -/
def get_product_by_id (conn : Bool) (store : List (String × PyDict))
    (pid : String) : Option PyDict :=
  if ensure_connection conn then
    if pid == "" then Option.none
    else alistGet store pid
  else Option.none

/-- Deletion `delete_product` (elasticsearch_service.py 836-855). -/
def delete_product (conn : Bool) (store : List (String × PyDict))
    (pid : String) : Bool × List (String × PyDict) :=
  if ensure_connection conn then
    if pid == "" then (false, store)
    else
      match alistGet store pid with
      | some _ => (true, store.filter (fun kv => !(kv.1 == pid)))
      | Option.none => (false, store)
  else (false, store)

/-- Index clearing `clear_index` (elasticsearch_service.py 857-875):
`delete_by_query` over a missing index raises, which the source's `except`
maps to `False`. -/
def clear_index (conn : Bool) (st : ESIndexState) : Bool × ESIndexState :=
  if ensure_connection conn then
    match st.index with
    | some _ => (true, ESIndexState.mk (some []))
    | Option.none => (false, st)
  else (false, st)

/-- Result shape of `get_stats` (elasticsearch_service.py 813-834):
`unavailable` models the `{"error": "Elasticsearch not connected"}` dict,
`indexMissing` the `{"error": "Index ... does not exist", ...}` dict, and
`ok` the statistics payload (document count retained). -/
inductive StatsResult where
  | unavailable
  | indexMissing
  | ok (documentsCount : Nat)
deriving Repr, DecidableEq

/-- Statistics `get_stats` (elasticsearch_service.py 813-834). -/
def get_stats (conn : Bool) (st : ESIndexState) : StatsResult :=
  if ensure_connection conn then
    match st.index with
    | Option.none => StatsResult.indexMissing
    | some docs => StatsResult.ok docs.length
  else StatsResult.unavailable

/-- Python dict-merge performed by the engine on `update` with a partial
`{"doc": ...}` body: each updated field overwrites the stored one. -/
def dictMerge (base upd : PyDict) : PyDict :=
  upd.foldl (fun acc kv => alistSet acc kv.1 kv.2) base

/-- Partial update `update_product` (elasticsearch_service.py 1021-1049). -/
def update_product (conn : Bool) (store : List (String × PyDict))
    (pid : String) (d : PyDict) : Bool × List (String × PyDict) :=
  if ensure_connection conn then
    if pid == "" then (false, store)
    else
      match alistGet store pid with
      | some old => (true, alistSet store pid (dictMerge old (_prepare_product_data d)))
      | Option.none => (false, store)
  else (false, store)

/-- Outcome of the `elasticsearch.helpers.bulk(...)` call made by
`bulk_add_products` with `raise_on_error=False`: either the pair
`(success_count, failed_items)` (only the count of failed items matters to
the service's arithmetic) or a raised exception. -/
inductive BulkOutcome where
  | ok (successCount : Nat) (failedCount : Nat)
  | exn
deriving Repr, DecidableEq

/-- The `{"success": ..., "failed": ..., "total": ...}` dict returned by
`bulk_add_products`; Python integers are unbounded and signed, hence `Int`. -/
structure BulkResult where
  success : Int
  failed : Int
  total : Int
deriving Repr, DecidableEq

/-- Diagnostic fallback `_fallback_bulk_add` (elasticsearch_service.py
455-482): retries the first 10 actions one at a time (`indexOne` is the
per-action engine oracle), then reports
`failed = failed_count + (len(actions) - 10)` — a Python expression that
goes negative when fewer than 10 actions exist. -/
def _fallback_bulk_add (indexOne : PyDict → Bool) (actions : List PyDict)
    (initialFailed : Nat) (totalProducts : Nat) : BulkResult :=
  let tried := actions.take 10
  let successCount := (tried.filter indexOne).length
  let failedCount := initialFailed + (tried.length - successCount)
  BulkResult.mk successCount
    ((failedCount : Int) + ((actions.length : Int) - 10))
    totalProducts

/-- Batch ingestion `bulk_add_products` (elasticsearch_service.py 368-453).
Per-item preparation (`_extract_document_id` + `_prepare_product_data`) can
raise in the source and is wrapped in a per-item `try`; it is modelled by
the oracle `prepare`, returning `Option.none` when preparation fails for
that document and the prepared action otherwise.  The single bulk call is
the oracle `bulkCall`; `indexOne` drives the diagnostic fallback. -/
def bulk_add_products (conn : Bool) (prepare : PyDict → Option PyDict)
    (bulkCall : List PyDict → BulkOutcome) (indexOne : PyDict → Bool)
    (products : List PyDict) : BulkResult :=
  if ensure_connection conn then
    if products.isEmpty then BulkResult.mk 0 0 0
    else
      let actions := products.filterMap prepare
      let failedProducts := products.length - actions.length
      if actions.isEmpty then
        BulkResult.mk 0 products.length products.length
      else
        match bulkCall actions with
        | .exn => _fallback_bulk_add indexOne actions failedProducts products.length
        | .ok s f =>
            BulkResult.mk s ((f : Int) + (failedProducts : Int)) products.length
  else BulkResult.mk 0 products.length products.length

/-- The id a product contributes in the combined-mode merge:
`str(product.get("_id", ""))` (search.py 178). -/
def docIdStr (p : PyDict) : String := pyStr ((alistGet p "_id").getD (.str ""))

/-- Ids collected from the title-mode products (search.py 172-174): only
products that carry an `_id` key contribute `str(product["_id"])`. -/
def titleSeenIds (ps : List PyDict) : List String :=
  ps.filterMap (fun p => (alistGet p "_id").map pyStr)

/-- The attribute-result merge loop of `search_combined` (search.py
176-181): append each attribute-mode product whose id has not been seen,
remembering its id. -/
def appendAttrProducts (seen : List String) (acc : List PyDict) :
    List PyDict → List PyDict
  | [] => acc
  | p :: rest =>
      let pid := docIdStr p
      if pid ∈ seen then appendAttrProducts seen acc rest
      else appendAttrProducts (pid :: seen) (acc ++ [p]) rest

/-- Result combination of the `"both"` branch of `search_combined`
(search.py 167-192): title-mode products first, deduplicated attribute-mode
products appended, truncated to the requested size; `total` is the sum of
the sub-query totals and `took` their maximum. -/
def combineBoth (titleRes attrRes : SearchRes) (size : Nat) : SearchRes :=
  let combined :=
    appendAttrProducts (titleSeenIds titleRes.products) titleRes.products
      attrRes.products
  SearchRes.mk (titleRes.total + attrRes.total) (combined.take size)
    (max titleRes.took attrRes.took)

/-- Combined-mode search, `search_combined` with `search_type="both"`
(search.py 153-192): each sub-search is requested with half the page size
and half the offset, and the results are merged by `combineBoth`.  The two
sub-searches are oracles `(query, size, from) ↦ result`, standing for
`search_products_by_title` / `search_products_by_attributes_text` applied
to the live index. -/
def search_combined_both (searchTitle searchAttr : String → Nat → Nat → SearchRes)
    (q : String) (size from_ : Nat) : SearchRes :=
  combineBoth (searchTitle q (size / 2) (from_ / 2))
    (searchAttr q (size / 2) (from_ / 2)) size

/-- Whether `n` is a leading run of `h` (character lists). -/
def charsStartWith : List Char → List Char → Bool
  | [], _ => true
  | _ :: _, [] => false
  | a :: as, b :: bs => a == b && charsStartWith as bs

/-- Whether `n` occurs contiguously anywhere inside `h` (character lists). -/
def charsHaveSub (n : List Char) : List Char → Bool
  | [] => n.isEmpty
  | c :: rest => charsStartWith n (c :: rest) || charsHaveSub n rest

/-- Whether `needle` occurs as a substring of `hay`. -/
def strMentions (needle hay : String) : Bool := charsHaveSub needle.data hay.data

/-- Field lookup inside an embedded query body. -/
def pvGet (v : PyVal) (k : String) : Option PyVal :=
  match v with
  | .dict fs => alistGet fs k
  | _ => Option.none


/-- The `flat_attributes` mapping of a prepared document, when present and
dict-shaped. -/
def flatOf (p : PyDict) : Option PyDict :=
  match alistGet p "flat_attributes" with
  | some (.dict g) => some g
  | _ => Option.none

/-- Cleaning applied to a single list element by `_validate_and_clean_data`:
dict elements are sanitized recursively, all others pass through. -/
def elemClean (x : PyVal) : PyVal :=
  match x with
  | .dict fs => .dict (cleanData fs)
  | x => x

/-- A 12,000-character string, the spec's oversized-field scenario. -/
def longA : String := String.mk (List.replicate 12000 'a')

section AlistLemmas

variable {α β : Type}

theorem alistGet_cons (k' : String) (v : α) (fs : List (String × α)) (k : String) :
    alistGet ((k', v) :: fs) k = if k' = k then some v else alistGet fs k := by
  by_cases h : k' = k <;> simp [alistGet, List.find?_cons, h]

theorem alistGet_alistSet_self (fs : List (String × α)) (k : String) (v : α) :
    alistGet (alistSet fs k v) k = some v := by
  induction fs with
  | nil => simp [alistSet, alistGet_cons]
  | cons kv rest ih =>
    match kv with
    | (k', v') =>
      by_cases hk : k' = k
      · simp [alistSet, hk, alistGet_cons]
      · simp [alistSet, hk, alistGet_cons, ih]

theorem alistGet_alistSet_ne (fs : List (String × α)) (k k' : String) (v : α)
    (h : k' ≠ k) : alistGet (alistSet fs k v) k' = alistGet fs k' := by
  induction fs with
  | nil => simp [alistSet, alistGet_cons, Ne.symm h, alistGet]
  | cons kv rest ih =>
    match kv with
    | (k₀, v₀) =>
      by_cases hk : k₀ = k
      · have hne : k ≠ k' := Ne.symm h
        have hne' : k₀ ≠ k' := by simpa [hk] using hne
        simp [alistSet, hk, alistGet_cons, hne, hne']
      · by_cases hk' : k₀ = k'
        · simp [alistSet, hk, hk', h, alistGet_cons]
        · simp [alistSet, hk, hk', alistGet_cons, ih]

theorem isSome_alistGet_alistSet (fs : List (String × α)) (k k' : String) (v : α) :
    (alistGet (alistSet fs k v) k').isSome
      ↔ k' = k ∨ (alistGet fs k').isSome := by
  by_cases h : k' = k
  · subst h; simp [alistGet_alistSet_self]
  · simp [alistGet_alistSet_ne fs k k' v h, h]

theorem alistGet_map_val (f : α → β) (fs : List (String × α)) (k : String) :
    alistGet (fs.map (fun kv => (kv.1, f kv.2))) k = (alistGet fs k).map f := by
  induction fs with
  | nil => rfl
  | cons kv rest ih =>
    match kv with
    | (k₀, v₀) =>
      by_cases h : k₀ = k <;> simp [alistGet_cons, h, ih]

end AlistLemmas

theorem alistGet_cleanData (fs : PyDict) (k : String) (h : k ≠ "_id") :
    alistGet (cleanData fs) k = (alistGet fs k).map cleanValue := by
  induction fs with
  | nil => rfl
  | cons kv rest ih =>
    match kv with
    | (k', v) =>
      by_cases hid : k' = "_id"
      · have hne : k' ≠ k := by simpa [hid] using (Ne.symm h)
        simp [cleanData, hid, alistGet_cons, hne, Ne.symm h, ih]
      · by_cases hk : k' = k
        · simp [cleanData, hid, alistGet_cons, hk, h]
        · simp [cleanData, hid, alistGet_cons, hk, ih]

theorem alistGet_cleanData_id (fs : PyDict) :
    alistGet (cleanData fs) "_id" = Option.none := by
  induction fs with
  | nil => rfl
  | cons kv rest ih =>
    match kv with
    | (k', v) =>
      by_cases hid : k' = "_id"
      · simp [cleanData, hid, ih]
      · simp [cleanData, hid, alistGet_cons, ih]

theorem alistGet_convertFields (fs : PyDict) (k : String) :
    alistGet (convertFields fs) k = (alistGet fs k).map convertVal := by
  induction fs with
  | nil => rfl
  | cons kv rest ih =>
    match kv with
    | (k', v) =>
      by_cases hk : k' = k <;> simp [convertFields, alistGet_cons, hk, ih]

theorem strTake_length_le (s : String) (n : Nat) : (strTake s n).length ≤ n := by
  show (s.data.take n).length ≤ n
  exact List.length_take_le n s.data

theorem truncateAt_length_le (n : Nat) (s : String) :
    (truncateAt n s).length ≤ n + 3 := by
  unfold truncateAt
  split
  case isTrue h =>
    rw [String.length_append]
    have h1 := strTake_length_le s n
    have h2 : ("...".length : Nat) = 3 := rfl
    omega
  case isFalse h => omega

theorem attrEntry_value_shape (a : PyVal) (k v : String)
    (h : attrEntry a = some (k, v)) : ∃ s, v = truncateAt 1000 s := by
  match a with
  | .str s => exact Option.noConfusion (show Option.none = some (k, v) from h)
  | .int n => exact Option.noConfusion (show Option.none = some (k, v) from h)
  | .bool b => exact Option.noConfusion (show Option.none = some (k, v) from h)
  | .pyNone => exact Option.noConfusion (show Option.none = some (k, v) from h)
  | .oid s => exact Option.noConfusion (show Option.none = some (k, v) from h)
  | .list xs => exact Option.noConfusion (show Option.none = some (k, v) from h)
  | .dict fs =>
    simp only [attrEntry] at h
    split at h
    case isTrue =>
      have hp := (Prod.mk.injEq _ _ _ _).mp (Option.some.inj h)
      exact ⟨pyStr ((alistGet fs "attr_value").getD PyVal.pyNone), hp.2.symm⟩
    case isFalse => exact Option.noConfusion h

theorem buildFlat_isSome (attrs : List PyVal) :
    ∀ (acc : List (String × String)) (name : String),
    (alistGet (buildFlatAttributes attrs acc) name).isSome
      ↔ (alistGet acc name).isSome
        ∨ ∃ a ∈ attrs, ∃ v, attrEntry a = some (name, v) := by
  induction attrs with
  | nil =>
    intro acc name
    simp [buildFlatAttributes]
  | cons a rest ih =>
    intro acc name
    have hcons : (∃ x ∈ a :: rest, ∃ v, attrEntry x = some (name, v))
        ↔ (∃ v, attrEntry a = some (name, v))
          ∨ ∃ x ∈ rest, ∃ v, attrEntry x = some (name, v) := by
      constructor
      · rintro ⟨x, hx, v, hv⟩
        rcases List.mem_cons.mp hx with h | h
        · exact Or.inl ⟨v, h ▸ hv⟩
        · exact Or.inr ⟨x, h, v, hv⟩
      · rintro (⟨v, hv⟩ | ⟨x, hx, v, hv⟩)
        · exact ⟨a, List.mem_cons_self a rest, v, hv⟩
        · exact ⟨x, List.mem_cons_of_mem a hx, v, hv⟩
    rw [hcons]
    cases he : attrEntry a with
    | none =>
      have hstep : buildFlatAttributes (a :: rest) acc
          = buildFlatAttributes rest acc := by
        simp only [buildFlatAttributes, he]
      rw [hstep, ih acc name]
      have hno : ¬ ∃ v, (Option.none : Option (String × String)) = some (name, v) := by
        rintro ⟨v, hv⟩
        exact Option.noConfusion hv
      tauto
    | some kw =>
      match kw with
      | (k, w) =>
        have hstep : buildFlatAttributes (a :: rest) acc
            = buildFlatAttributes rest (alistSet acc k w) := by
          simp only [buildFlatAttributes, he]
        rw [hstep, ih (alistSet acc k w) name, isSome_alistGet_alistSet]
        have hex : (∃ v, (some (k, w) : Option (String × String)) = some (name, v))
            ↔ name = k := by
          constructor
          · rintro ⟨v, hv⟩
            exact ((Prod.mk.injEq _ _ _ _).mp (Option.some.inj hv)).1.symm
          · rintro rfl
            exact ⟨w, rfl⟩
        rw [hex]
        tauto

theorem buildFlat_value (attrs : List PyVal) :
    ∀ (acc : List (String × String)) (name v : String),
    alistGet (buildFlatAttributes attrs acc) name = some v →
    alistGet acc name = some v
      ∨ ∃ a ∈ attrs, attrEntry a = some (name, v) := by
  induction attrs with
  | nil =>
    intro acc name v h
    exact Or.inl h
  | cons a rest ih =>
    intro acc name v h
    cases he : attrEntry a with
    | none =>
      have hstep : buildFlatAttributes (a :: rest) acc
          = buildFlatAttributes rest acc := by
        simp only [buildFlatAttributes, he]
      rw [hstep] at h
      rcases ih acc name v h with h' | ⟨a', ha', hv⟩
      · exact Or.inl h'
      · exact Or.inr ⟨a', List.mem_cons_of_mem a ha', hv⟩
    | some kw =>
      match kw with
      | (k, w) =>
        have hstep : buildFlatAttributes (a :: rest) acc
            = buildFlatAttributes rest (alistSet acc k w) := by
          simp only [buildFlatAttributes, he]
        rw [hstep] at h
        rcases ih _ name v h with h' | ⟨a', ha', hv⟩
        · by_cases hk : name = k
          · subst hk
            rw [alistGet_alistSet_self] at h'
            exact Or.inr ⟨a, List.mem_cons_self a rest,
              by rw [he, Option.some.inj h']⟩
          · rw [alistGet_alistSet_ne _ _ _ _ hk] at h'
            exact Or.inl h'
        · exact Or.inr ⟨a', List.mem_cons_of_mem a ha', hv⟩

theorem appendAttr_eq_append (l : List PyDict) :
    ∀ (seen : List String) (acc : List PyDict),
    appendAttrProducts seen acc l = acc ++ appendAttrProducts seen [] l := by
  induction l with
  | nil =>
    intro seen acc
    simp [appendAttrProducts]
  | cons p rest ih =>
    intro seen acc
    simp only [appendAttrProducts]
    by_cases h : docIdStr p ∈ seen
    · rw [if_pos h, if_pos h]
      exact ih seen acc
    · rw [if_neg h, if_neg h]
      rw [ih _ (acc ++ [p]), ih _ ([] ++ [p])]
      simp

theorem appendAttr_subset (l : List PyDict) :
    ∀ (seen : List String) (acc : List PyDict) (p : PyDict),
    p ∈ appendAttrProducts seen acc l → p ∈ acc ∨ p ∈ l := by
  induction l with
  | nil =>
    intro seen acc p h
    exact Or.inl h
  | cons x rest ih =>
    intro seen acc p h
    simp only [appendAttrProducts] at h
    by_cases hx : docIdStr x ∈ seen
    · rw [if_pos hx] at h
      rcases ih _ _ _ h with h' | h'
      · exact Or.inl h'
      · exact Or.inr (List.mem_cons_of_mem x h')
    · rw [if_neg hx] at h
      rcases ih _ _ _ h with h' | h'
      · rcases List.mem_append.mp h' with h'' | h''
        · exact Or.inl h''
        · exact Or.inr ((List.mem_singleton.mp h'') ▸ List.mem_cons_self x rest)
      · exact Or.inr (List.mem_cons_of_mem x h')

theorem appendAttr_nodup (l : List PyDict) :
    ∀ (seen : List String) (acc : List PyDict),
    (acc.map docIdStr).Nodup →
    (∀ x ∈ acc.map docIdStr, x ∈ seen) →
    ((appendAttrProducts seen acc l).map docIdStr).Nodup := by
  induction l with
  | nil =>
    intro seen acc h1 _
    exact h1
  | cons p rest ih =>
    intro seen acc h1 h2
    simp only [appendAttrProducts]
    by_cases hx : docIdStr p ∈ seen
    · rw [if_pos hx]
      exact ih seen acc h1 h2
    · rw [if_neg hx]
      apply ih (docIdStr p :: seen) (acc ++ [p])
      · rw [List.map_append]
        refine List.Nodup.append h1 (List.nodup_singleton _) ?_
        intro x hxa hxb
        rw [List.map_singleton, List.mem_singleton] at hxb
        exact hx (hxb ▸ h2 x hxa)
      · intro x hx'
        rw [List.map_append] at hx'
        rcases List.mem_append.mp hx' with h | h
        · exact List.mem_cons_of_mem _ (h2 x h)
        · rw [List.map_singleton, List.mem_singleton] at h
          exact h ▸ List.mem_cons_self _ _

theorem titleSeenIds_sup (ps : List PyDict)
    (hid : ∀ p ∈ ps, (alistGet p "_id").isSome = true) :
    ∀ x ∈ ps.map docIdStr, x ∈ titleSeenIds ps := by
  intro x hx
  rcases List.mem_map.mp hx with ⟨p, hp, hpx⟩
  rcases Option.isSome_iff_exists.mp (hid p hp) with ⟨v, hv⟩
  have : docIdStr p = pyStr v := by
    unfold docIdStr
    rw [hv]
    rfl
  refine List.mem_filterMap.mpr ⟨p, hp, ?_⟩
  rw [hv, Option.map_some', ← this, hpx]

/-- C1: evaluation of `bulk_add_products` at a failing input.  A connected
service receives a batch of one document; preparation succeeds (`M = 0`),
the bulk call itself raises, and the single fallback retry succeeds.  The
code returns `{success: 1, failed: -9, total: 1}` because the fallback adds
`len(actions) - 10 = -9` untried actions: `success + failed = -8 ≠ 1 = total`
and `failed < 0 ≤ M`, contradicting the claimed invariant on the fallback
path. -/
theorem C1_bulk_fallback_miscount :
    bulk_add_products true some (fun _ => BulkOutcome.exn) (fun _ => true) [[]]
      = BulkResult.mk 1 (-9) 1
    ∧ ¬ ((BulkResult.mk 1 (-9) 1).success + (BulkResult.mk 1 (-9) 1).failed
          = (BulkResult.mk 1 (-9) 1).total)
    ∧ ¬ (0 ≤ (BulkResult.mk 1 (-9) 1).failed) :=
  ⟨rfl, by decide, by decide⟩

/-- C3: with the engine connection absent (`ensure_connection` reporting
`false`), every public operation of the service short-circuits on the
connectivity check and returns its typed failure value — `False` for
`create_index`/`delete_product`/`clear_index`/`update_product` and the
status of `add_product`, the all-failed count dict for `bulk_add_products`,
the empty result for both search modes, `None` for `get_product_by_id`, and
the error dict for `get_stats` — without raising to the caller. -/
theorem C3_disconnected_typed_failures :
    ∀ (st : ESIndexState) (store : List (String × PyDict)) (d : PyDict)
      (genId pid : String) (es es' : PyVal → SearchRes) (q : String)
      (size from_ : Nat) (prepare : PyDict → Option PyDict)
      (bulkCall : List PyDict → BulkOutcome) (indexOne : PyDict → Bool)
      (products : List PyDict),
    create_index false st = (false, st)
    ∧ add_product false genId store d = (false, store)
    ∧ bulk_add_products false prepare bulkCall indexOne products
        = BulkResult.mk 0 products.length products.length
    ∧ search_products_by_title false es q size from_ = SearchRes.mk 0 [] 0
    ∧ search_products_by_attributes_text false es' q size from_ = SearchRes.mk 0 [] 0
    ∧ get_product_by_id false store pid = Option.none
    ∧ delete_product false store pid = (false, store)
    ∧ clear_index false st = (false, st)
    ∧ get_stats false st = StatsResult.unavailable
    ∧ update_product false store pid d = (false, store) := by
  intro st store d genId pid es es' q size from_ prepare bulkCall indexOne products
  exact ⟨rfl, rfl, rfl, rfl, rfl, rfl, rfl, rfl, rfl, rfl⟩

/-- C5 counterexample: a document whose `_id` is an `$oid` wrapper embedding
a non-string is extracted as that embedded value unchanged — the extracted
id is the integer `42`, not a string, refuting "no normalizer output has a
non-string id" as universally stated. -/
theorem C5_nonstring_id_counterexample :
    extract_document_id [("_id", PyVal.dict [("$oid", PyVal.int 42)])]
      = some (PyVal.int 42)
    ∧ PyVal.isStr (PyVal.int 42) = false :=
  ⟨rfl, rfl⟩

/-- C5 (amended): for every raw document from which an id is extracted, the
id is a string — a plain string `_id` as-is, an `ObjectId` stringified, an
`$oid` wrapper yielding its embedded value, any other shape stringified —
provided that when `_id` is an `$oid` wrapper the embedded value is itself
a string (the wrapper's payload is returned unchanged, which is the only
way a non-string id escapes); a document without `_id` yields no id. -/
theorem C5_extracted_id_string_amended :
    ∀ (d : PyDict) (v : PyVal),
    extract_document_id d = some v →
    (∀ (fs : PyDict) (w : PyVal), alistGet d "_id" = some (.dict fs) →
        alistGet fs "$oid" = some w → w.isStr = true) →
    v.isStr = true := by
  intro d v h hwrap
  unfold extract_document_id at h
  cases hid : alistGet d "_id" with
  | none =>
    rw [hid] at h
    exact Option.noConfusion h
  | some idv =>
    rw [hid] at h
    match idv with
    | .str s => rw [← Option.some.inj h]; rfl
    | .int n => rw [← Option.some.inj h]; rfl
    | .bool b => rw [← Option.some.inj h]; rfl
    | .pyNone => rw [← Option.some.inj h]; rfl
    | .oid s => rw [← Option.some.inj h]; rfl
    | .list xs => rw [← Option.some.inj h]; rfl
    | .dict fs =>
      have h' : (match alistGet fs "$oid" with
          | some w => some w
          | Option.none => some (PyVal.str (pyStr (PyVal.dict fs)))) = some v := h
      cases hoid : alistGet fs "$oid" with
      | some w =>
        rw [hoid] at h'
        rw [← Option.some.inj h']
        exact hwrap fs w hid hoid
      | none =>
        rw [hoid] at h'
        rw [← Option.some.inj h']
        rfl

/-- C5 witness: the amended statement applied at a concrete `$oid` wrapper
embedding a string. -/
theorem C5_extracted_id_string_witness :
    PyVal.isStr (PyVal.str "66b2") = true :=
  C5_extracted_id_string_amended
    [("_id", PyVal.dict [("$oid", PyVal.str "66b2")])] (PyVal.str "66b2") rfl
    (by
      intro fs w h1 h2
      have h1' : PyVal.dict [("$oid", PyVal.str "66b2")] = PyVal.dict fs :=
        Option.some.inj
          (show some (PyVal.dict [("$oid", PyVal.str "66b2")]) = some (.dict fs) from h1)
      injection h1' with h1''
      subst h1''
      have h2' : some (PyVal.str "66b2") = some w := h2
      rw [← Option.some.inj h2']
      rfl)

/-- C8: `create_index` is an idempotent reset: from every index state a
connected call succeeds and leaves the index present and empty (a
pre-existing index is deleted and recreated rather than erroring), and a
second call in succession succeeds with the same empty state. -/
theorem C8_create_index_idempotent_reset :
    ∀ st : ESIndexState,
    (create_index true st).1 = true
    ∧ (create_index true st).2.index = some []
    ∧ (create_index true (create_index true st).2).1 = true
    ∧ (create_index true (create_index true st).2).2.index = some [] := by
  intro st
  cases h : st.index <;>
    simp [create_index, ensure_connection, h]

/-- C9: for every blank query (empty or whitespace-only, so that `strip()`
yields the empty string), both title-mode and attribute-mode search return
the empty result `{total: 0, products: [], took: 0}`; the engine oracles
`es`, `es'` are arbitrary and unused, so no query is issued to the engine. -/
theorem C9_blank_query_fails_closed :
    ∀ (q : String) (conn : Bool) (es es' : PyVal → SearchRes) (size from_ : Nat),
    pyStrip q = "" →
    search_products_by_title conn es q size from_ = SearchRes.mk 0 [] 0
    ∧ search_products_by_attributes_text conn es' q size from_ = SearchRes.mk 0 [] 0 := by
  intro q conn es es' size from_ h
  cases conn <;>
    simp [search_products_by_title, search_products_by_attributes_text,
      ensure_connection, h]

/-- C9 witness: a whitespace-only query against live oracles returns the
empty result in both modes. -/
theorem C9_blank_query_witness :
    search_products_by_title true (fun _ => SearchRes.mk 5 [] 7) "   " 10 0
      = SearchRes.mk 0 [] 0
    ∧ search_products_by_attributes_text true (fun _ => SearchRes.mk 5 [] 7) "   " 10 0
      = SearchRes.mk 0 [] 0 :=
  C9_blank_query_fails_closed "   " true _ _ 10 0 (by decide)

/-- C7: for every non-blank query, title-mode search submits exactly the
`multi_match` body over the four weighted fields `title^3`, `brand^2`,
`description^1.5`, `article` with automatic fuzziness and no field touching
attribute content, while attribute-mode search submits exactly a `nested`
query on path `attributes` matching the single field
`attributes.attr_value` with automatic fuzziness and no mention of title,
brand, description or article (mode separation). -/
theorem C7_mode_separation :
    ∀ (q : String) (size from_ : Nat) (es : PyVal → SearchRes),
    ¬ pyStrip q = "" →
    search_products_by_title true es q size from_ = es (title_full_query q size from_)
    ∧ search_products_by_attributes_text true es q size from_
        = es (attrs_full_query q size from_)
    ∧ ((pvGet (title_search_query q) "multi_match").bind (fun m => pvGet m "fields")
        = some (.list [.str "title^3", .str "brand^2", .str "description^1.5",
                       .str "article"]))
    ∧ ((pvGet (title_search_query q) "multi_match").bind (fun m => pvGet m "fuzziness")
        = some (.str "AUTO"))
    ∧ (∀ f ∈ ["title^3", "brand^2", "description^1.5", "article"],
        strMentions "attributes" f = false ∧ strMentions "attr_value" f = false)
    ∧ ((pvGet (attrs_search_query q) "nested").bind (fun m => pvGet m "path")
        = some (.str "attributes"))
    ∧ ((pvGet (attrs_search_query q) "nested").bind (fun m =>
          (pvGet m "query").bind (fun m' => pvGet m' "match"))
        = some (.dict [("attributes.attr_value", .dict
            [("query", .str (pyStrip q)), ("fuzziness", .str "AUTO")])]))
    ∧ (∀ t ∈ ["title", "brand", "description", "article"],
        strMentions t "attributes.attr_value" = false) := by
  intro q size from_ es h
  refine ⟨?_, ?_, rfl, rfl, by decide, rfl, rfl, by decide⟩
  · simp [search_products_by_title, ensure_connection, h]
  · simp [search_products_by_attributes_text, ensure_connection, h]

/-- C7 witness: a concrete non-blank query is dispatched to the engine with
the title-mode request body. -/
theorem C7_mode_separation_witness :
    search_products_by_title true (fun _ => SearchRes.mk 1 [] 2) "lamp" 10 0
      = (fun _ => SearchRes.mk 1 [] 2) (title_full_query "lamp" 10 0) :=
  (C7_mode_separation "lamp" 10 0 (fun _ => SearchRes.mk 1 [] 2) (by decide)).1

theorem alistSet_mem {α : Type} (fs : List (String × α)) (k : String) (v : α) :
    ∀ x ∈ alistSet fs k v, x ∈ fs ∨ x = (k, v) := by
  induction fs with
  | nil =>
    intro x hx
    exact Or.inr (List.mem_singleton.mp hx)
  | cons kv rest ih =>
    match kv with
    | (k₀, v₀) =>
      intro x hx
      by_cases hk : k₀ = k
      · rw [alistSet, if_pos (by simpa using hk)] at hx
        rcases List.mem_cons.mp hx with h | h
        · exact Or.inr h
        · exact Or.inl (List.mem_cons_of_mem _ h)
      · rw [alistSet, if_neg (by simpa using hk)] at hx
        rcases List.mem_cons.mp hx with h | h
        · exact Or.inl (h ▸ List.mem_cons_self _ _)
        · rcases ih x h with h' | h'
          · exact Or.inl (List.mem_cons_of_mem _ h')
          · exact Or.inr h'

/-- C10: the normalizer strips `_id` everywhere: (1) no prepared document
carries a top-level `_id` key, so the id survives only as the index
action's routing id; (2) consequently a store whose documents all lack
`_id` still lacks `_id` everywhere after `add_product` stores a freshly
prepared document; (3) the combined-mode merger's duplicate check, which
reads `product["_id"]`, collects no id from title-mode results whose
documents lack `_id`. -/
theorem C10_id_stripped :
    (∀ d : PyDict, alistGet (_prepare_product_data d) "_id" = Option.none)
    ∧ (∀ (genId : String) (store : List (String × PyDict)) (d : PyDict),
        (∀ kv ∈ store, alistGet kv.2 "_id" = Option.none) →
        ∀ kv ∈ (add_product true genId store d).2, alistGet kv.2 "_id" = Option.none)
    ∧ (∀ ps : List PyDict, (∀ p ∈ ps, alistGet p "_id" = Option.none) →
        titleSeenIds ps = []) := by
  have hprep : ∀ d : PyDict, alistGet (_prepare_product_data d) "_id" = Option.none := by
    intro d
    have hbase : ∀ fs : PyDict,
        alistGet (convertFields (cleanData fs)) "_id" = Option.none := by
      intro fs
      rw [alistGet_convertFields, alistGet_cleanData_id]
      rfl
    exact hbase _
  refine ⟨hprep, ?_, ?_⟩
  · intro genId store d hstore kv hkv
    have hmem : ∀ key : String,
        kv ∈ alistSet store key (_prepare_product_data d) →
        alistGet kv.2 "_id" = Option.none := by
      intro key hm
      rcases alistSet_mem store key (_prepare_product_data d) kv hm with h | h
      · exact hstore kv h
      · rw [h]
        exact hprep d
    unfold add_product at hkv
    simp only [ensure_connection, if_true] at hkv
    cases hext : extract_document_id d with
    | some v =>
      rw [hext] at hkv
      exact hmem (pyStr v) hkv
    | none =>
      rw [hext] at hkv
      exact hmem genId hkv
  · intro ps h
    refine List.filterMap_eq_nil_iff.mpr ?_
    intro p hp
    rw [h p hp]
    rfl

/-- C10 witness: the invariant applied at a concrete document and a
concrete title-result list. -/
theorem C10_id_stripped_witness :
    alistGet (_prepare_product_data
        [("_id", PyVal.str "a"), ("title", PyVal.str "t")]) "_id" = Option.none
    ∧ titleSeenIds [[("title", PyVal.str "t")]] = [] :=
  ⟨C10_id_stripped.1 [("_id", PyVal.str "a"), ("title", PyVal.str "t")],
   C10_id_stripped.2.2 [[("title", PyVal.str "t")]]
     (by
       intro p hp
       rw [List.mem_singleton.mp hp]
       rfl)⟩

theorem combineBoth_props (t a : SearchRes) (size : Nat)
    (hid : ∀ p ∈ t.products, (alistGet p "_id").isSome = true)
    (hnd : (t.products.map docIdStr).Nodup) :
    (combineBoth t a size).total = t.total + a.total
    ∧ (combineBoth t a size).products.length ≤ size
    ∧ (∃ rest, (combineBoth t a size).products = t.products.take size ++ rest)
    ∧ (∀ p ∈ (combineBoth t a size).products, p ∈ t.products ∨ p ∈ a.products)
    ∧ ((combineBoth t a size).products.map docIdStr).Nodup := by
  refine ⟨rfl, ?_, ?_, ?_, ?_⟩
  · exact List.length_take_le size _
  · show ∃ rest,
      (appendAttrProducts (titleSeenIds t.products) t.products a.products).take size
        = t.products.take size ++ rest
    rw [appendAttr_eq_append, List.take_append_eq_append_take]
    exact ⟨_, rfl⟩
  · intro p hp
    have hp' := List.take_subset _ _ hp
    rw [appendAttr_eq_append] at hp'
    rcases List.mem_append.mp hp' with h | h
    · exact Or.inl h
    · rcases appendAttr_subset _ _ _ _ h with h' | h'
      · exact absurd h' (List.not_mem_nil p)
      · exact Or.inr h'
  · show ((
      (appendAttrProducts (titleSeenIds t.products) t.products a.products).take
        size).map docIdStr).Nodup
    rw [List.map_take]
    exact List.Nodup.sublist (List.take_sublist _ _)
      (appendAttr_nodup _ _ _ hnd (titleSeenIds_sup _ hid))

/-- C2 counterexample: a title-mode sub-result that carries the same id
twice (each item holds `_id = "a"`) flows into the combined merge
unfiltered — the merge deduplicates only the appended attribute-mode items,
so the merged list contains a duplicate id, refuting "contains no duplicate
ids" as universally stated. -/
theorem C2_duplicate_ids_counterexample :
    ¬ ((search_combined_both
        (fun _ _ _ =>
          SearchRes.mk 2 [[("_id", PyVal.str "a")], [("_id", PyVal.str "a")]] 0)
        (fun _ _ _ => SearchRes.mk 0 [] 0) "q" 10 0).products.map docIdStr).Nodup := by
  intro h
  have he : ((search_combined_both
      (fun _ _ _ =>
        SearchRes.mk 2 [[("_id", PyVal.str "a")], [("_id", PyVal.str "a")]] 0)
      (fun _ _ _ => SearchRes.mk 0 [] 0) "q" 10 0).products.map docIdStr)
      = ["a", "a"] := rfl
  rw [he] at h
  simp at h

/-- C2 (amended): combined-mode search requests title mode and attribute
mode each with `size / 2` and `offset / 2`, reports `total` as the sum of
the two sub-totals, truncates the merged list to the requested `size`,
keeps the title-mode items (up to `size`) as the leading segment, draws
every merged item from one of the two sub-results, and — provided every
title-mode item carries an `_id` and the title-mode ids are pairwise
distinct — the merged list contains no duplicate ids (appended
attribute-mode items are deduplicated against all ids already seen). -/
theorem C2_combined_merge_amended :
    ∀ (f g : String → Nat → Nat → SearchRes) (q : String) (size from_ : Nat),
    (∀ p ∈ (f q (size / 2) (from_ / 2)).products, (alistGet p "_id").isSome = true) →
    ((f q (size / 2) (from_ / 2)).products.map docIdStr).Nodup →
    (search_combined_both f g q size from_).total
        = (f q (size / 2) (from_ / 2)).total + (g q (size / 2) (from_ / 2)).total
    ∧ (search_combined_both f g q size from_).products.length ≤ size
    ∧ (∃ rest, (search_combined_both f g q size from_).products
        = (f q (size / 2) (from_ / 2)).products.take size ++ rest)
    ∧ (∀ p ∈ (search_combined_both f g q size from_).products,
        p ∈ (f q (size / 2) (from_ / 2)).products
        ∨ p ∈ (g q (size / 2) (from_ / 2)).products)
    ∧ ((search_combined_both f g q size from_).products.map docIdStr).Nodup := by
  intro f g q size from_ hid hnd
  exact combineBoth_props (f q (size / 2) (from_ / 2)) (g q (size / 2) (from_ / 2))
    size hid hnd

/-- C2 witness: the amended statement applied to concrete sub-results with
distinct ids — the merged page respects the size bound. -/
theorem C2_combined_merge_witness :
    (search_combined_both
        (fun _ _ _ => SearchRes.mk 1 [[("_id", PyVal.str "a")]] 0)
        (fun _ _ _ => SearchRes.mk 1 [[("_id", PyVal.str "b")]] 0)
        "q" 10 0).products.length ≤ 10 :=
  (C2_combined_merge_amended
    (fun _ _ _ => SearchRes.mk 1 [[("_id", PyVal.str "a")]] 0)
    (fun _ _ _ => SearchRes.mk 1 [[("_id", PyVal.str "b")]] 0)
    "q" 10 0 (by decide) (by decide)).2.1


/-- C4 counterexample: an attribute pair named `_id` qualifies (truthy name,
non-null value) yet the prepared document's `flat_attributes` mapping is
empty — `_validate_and_clean_data` strips `_id` keys at every nesting
level, including inside the freshly built `flat_attributes` dict — so a
qualifying pair has no corresponding entry, refuting the key-set equality
as universally stated. -/
theorem C4_flat_attributes_counterexample :
    _prepare_product_data
      [("attributes", PyVal.list
        [PyVal.dict [("attr_name", PyVal.str "_id"), ("attr_value", PyVal.str "x")]])]
    = [("attributes", PyVal.list
        [PyVal.dict [("attr_name", PyVal.str "_id"), ("attr_value", PyVal.str "x")]]),
       ("flat_attributes", PyVal.dict [])]
    ∧ attrEntry (PyVal.dict [("attr_name", PyVal.str "_id"), ("attr_value", PyVal.str "x")])
        = some ("_id", "x") :=
  ⟨rfl, rfl⟩

/-- C4 (amended): for every raw document whose `attributes` field is a list
and which carries no pre-existing `flat_attributes` key, the key set of the
prepared document's `flat_attributes` mapping (empty when the mapping is
absent) equals the set of names of qualifying attribute pairs — truthy
`attr_name`, non-null `attr_value` — excluding the name `_id`, which the
sanitizer strips at every level; and every mapped value is the string form
of some qualifying pair's value truncated at 1,000 characters with a
marker. -/
theorem C4_flat_attributes_amended :
    ∀ (d : PyDict) (attrs : List PyVal),
    alistGet d "attributes" = some (.list attrs) →
    alistGet d "flat_attributes" = Option.none →
    (∀ name : String,
        (∃ g, flatOf (_prepare_product_data d) = some g
            ∧ (alistGet g name).isSome = true)
          ↔ (¬ name = "_id" ∧ ∃ a ∈ attrs, ∃ v, attrEntry a = some (name, v)))
    ∧ (∀ (g : PyDict) (name : String) (w : PyVal),
        flatOf (_prepare_product_data d) = some g → alistGet g name = some w →
        ∃ a ∈ attrs, ∃ v, attrEntry a = some (name, v) ∧ w = PyVal.str v) := by
  intro d attrs hattr hfa
  by_cases hfe : (buildFlatAttributes attrs []).isEmpty = true
  · have hd1 : _prepare_product_data d = convertFields (cleanData d) := by
      unfold _prepare_product_data
      rw [hattr]
      dsimp only
      rw [if_pos hfe]
    have hflat : alistGet (_prepare_product_data d) "flat_attributes"
        = Option.none := by
      rw [hd1, alistGet_convertFields, alistGet_cleanData _ _ (by decide), hfa]
      rfl
    have hfo : flatOf (_prepare_product_data d) = Option.none := by
      unfold flatOf
      rw [hflat]
    have hnoq : ∀ name, ¬ ∃ a ∈ attrs, ∃ v, attrEntry a = some (name, v) := by
      intro name hq
      have hs : (alistGet (buildFlatAttributes attrs []) name).isSome :=
        (buildFlat_isSome attrs [] name).mpr (Or.inr hq)
      rw [List.isEmpty_iff.mp hfe] at hs
      exact absurd hs (by simp [alistGet])
    constructor
    · intro name
      constructor
      · rintro ⟨g, hg, _⟩
        rw [hfo] at hg
        exact Option.noConfusion hg
      · rintro ⟨_, hq⟩
        exact absurd hq (hnoq name)
    · intro g name w hg _
      rw [hfo] at hg
      exact Option.noConfusion hg
  · have hd1 : _prepare_product_data d
        = convertFields (cleanData (alistSet d "flat_attributes"
            (.dict ((buildFlatAttributes attrs []).map
              (fun kv => (kv.1, PyVal.str kv.2)))))) := by
      unfold _prepare_product_data
      rw [hattr]
      dsimp only
      rw [if_neg hfe]
    have hget : alistGet (_prepare_product_data d) "flat_attributes"
        = some (PyVal.dict (convertFields (cleanData
            ((buildFlatAttributes attrs []).map
              (fun kv => (kv.1, PyVal.str kv.2)))))) := by
      rw [hd1, alistGet_convertFields, alistGet_cleanData _ _ (by decide),
        alistGet_alistSet_self]
      rfl
    have hgd : flatOf (_prepare_product_data d)
        = some (convertFields (cleanData
            ((buildFlatAttributes attrs []).map
              (fun kv => (kv.1, PyVal.str kv.2))))) := by
      unfold flatOf
      rw [hget]
    have hlook : ∀ name, ¬ name = "_id" →
        alistGet (convertFields (cleanData
            ((buildFlatAttributes attrs []).map
              (fun kv => (kv.1, PyVal.str kv.2))))) name
          = (alistGet (buildFlatAttributes attrs []) name).map
              (fun v => convertVal (cleanValue (.str v))) := by
      intro name hname
      rw [alistGet_convertFields, alistGet_cleanData _ _ hname,
        alistGet_map_val (fun v => PyVal.str v) (buildFlatAttributes attrs []) name]
      cases alistGet (buildFlatAttributes attrs []) name <;> rfl
    have hlookid : alistGet (convertFields (cleanData
        ((buildFlatAttributes attrs []).map
          (fun kv => (kv.1, PyVal.str kv.2))))) "_id" = Option.none := by
      rw [alistGet_convertFields, alistGet_cleanData_id]
      rfl
    constructor
    · intro name
      by_cases hname : name = "_id"
      · subst hname
        constructor
        · rintro ⟨g, hg, hsome⟩
          rw [hgd] at hg
          rw [← Option.some.inj hg, hlookid] at hsome
          exact absurd hsome (by simp)
        · rintro ⟨hne, _⟩
          exact absurd rfl hne
      · constructor
        · rintro ⟨g, hg, hsome⟩
          rw [hgd] at hg
          rw [← Option.some.inj hg, hlook name hname] at hsome
          have hfs : (alistGet (buildFlatAttributes attrs []) name).isSome := by
            cases h : alistGet (buildFlatAttributes attrs []) name
            · rw [h] at hsome
              exact absurd hsome (by simp)
            · rfl
          refine ⟨hname, ?_⟩
          rcases (buildFlat_isSome attrs [] name).mp hfs with h' | h'
          · exact absurd h' (by simp [alistGet])
          · exact h'
        · rintro ⟨_, hq⟩
          refine ⟨_, hgd, ?_⟩
          rw [hlook name hname]
          have hfs : (alistGet (buildFlatAttributes attrs []) name).isSome :=
            (buildFlat_isSome attrs [] name).mpr (Or.inr hq)
          cases h : alistGet (buildFlatAttributes attrs []) name
          · rw [h] at hfs
            exact absurd hfs (by simp)
          · rfl
    · intro g name w hg hw
      rw [hgd] at hg
      rw [← Option.some.inj hg] at hw
      by_cases hname : name = "_id"
      · subst hname
        rw [hlookid] at hw
        exact Option.noConfusion hw
      · rw [hlook name hname] at hw
        cases h : alistGet (buildFlatAttributes attrs []) name with
        | none =>
          rw [h] at hw
          exact Option.noConfusion hw
        | some v0 =>
          rw [h, Option.map_some'] at hw
          rcases buildFlat_value attrs [] name v0 h with h' | ⟨a, ha, hv⟩
          · exact absurd h' (by simp [alistGet])
          · rcases attrEntry_value_shape a name v0 hv with ⟨s, hs⟩
            have hlen : v0.length ≤ 1003 := by
              rw [hs]
              exact truncateAt_length_le 1000 s
            have hcv : cleanValue (.str v0) = .str v0 := by
              unfold cleanValue
              rw [if_neg (by omega)]
            refine ⟨a, ha, v0, hv, ?_⟩
            rw [← Option.some.inj hw, hcv]
            rfl

/-- C4 witness: the amended statement applied at a concrete document with a
single qualifying attribute pair. -/
theorem C4_flat_attributes_witness :
    ∃ g, flatOf (_prepare_product_data
        [("attributes", PyVal.list
          [PyVal.dict [("attr_name", PyVal.str "color"),
                       ("attr_value", PyVal.str "black")]])])
      = some g ∧ (alistGet g "color").isSome = true :=
  ((C4_flat_attributes_amended
      [("attributes", PyVal.list
        [PyVal.dict [("attr_name", PyVal.str "color"),
                     ("attr_value", PyVal.str "black")]])]
      [PyVal.dict [("attr_name", PyVal.str "color"),
                   ("attr_value", PyVal.str "black")]]
      rfl rfl).1 "color").mpr
    ⟨by decide,
     PyVal.dict [("attr_name", PyVal.str "color"), ("attr_value", PyVal.str "black")],
     List.mem_singleton_self _, "black", rfl⟩


theorem cleanElems_eq (n : Nat) : ∀ xs : List PyVal,
    cleanElems n xs = (xs.take n).map elemClean := by
  induction n with
  | zero =>
    intro xs
    cases xs <;> rfl
  | succ n ih =>
    intro xs
    cases xs with
    | nil => rfl
    | cons x rest =>
      cases x <;> simp [cleanElems, elemClean, ih]


/-- C6 counterexample: a 12,000-character string stored under the key `_id`
is not truncated-with-marker — the sanitizer removes the `_id` field
entirely, so the prepared document is empty, refuting "every scalar string
field longer than 10,000 characters is truncated" as universally stated. -/
theorem C6_id_field_dropped_counterexample :
    _prepare_product_data [("_id", PyVal.str longA)] = []
    ∧ longA.length = 12000 :=
  ⟨rfl, List.length_replicate 12000 'a'⟩

/-- Lookup of an untouched key through the whole normalizer: for keys other
than `_id` (dropped) and `flat_attributes` (possibly installed), the
prepared value is the cleaned-and-converted raw value. -/
theorem alistGet_prepare_ne (d : PyDict) (k : String) (hkid : ¬ k = "_id")
    (hkfa : ¬ k = "flat_attributes") :
    alistGet (_prepare_product_data d) k
      = (alistGet d k).map (fun v => convertVal (cleanValue v)) := by
  have hbase : ∀ d1 : PyDict, alistGet d1 k = alistGet d k →
      alistGet (convertFields (cleanData d1)) k
        = (alistGet d k).map (fun v => convertVal (cleanValue v)) := by
    intro d1 h1
    rw [alistGet_convertFields, alistGet_cleanData _ _ hkid, h1]
    cases alistGet d k <;> rfl
  unfold _prepare_product_data
  cases hattr : alistGet d "attributes" with
  | none => exact hbase d rfl
  | some v =>
    cases v with
    | list attrs =>
      dsimp only
      by_cases hfe : (buildFlatAttributes attrs []).isEmpty = true
      · rw [if_pos hfe]
        exact hbase d rfl
      · rw [if_neg hfe]
        exact hbase _ (alistGet_alistSet_ne _ _ _ _ hkfa)
    | str s => exact hbase d rfl
    | int n => exact hbase d rfl
    | bool b => exact hbase d rfl
    | pyNone => exact hbase d rfl
    | oid s => exact hbase d rfl
    | dict fs => exact hbase d rfl

/-- C6 (amended): the sanitizer truncates every over-long scalar string
field other than the removed `_id` keys: (1) at each dict level a surviving
field's value is cleaned in place; (2) string values are truncated at
10,000 characters with a `"..."` marker; (3) list values keep at most their
first 1,000 elements, dict elements sanitized recursively and others
unchanged; (4) every `flat_attributes` value is some pair's value
truncated at 1,000 characters with a marker, hence at most 1,003 characters;
(5) a document with a 12,000-character field (not named `_id` or
`flat_attributes`) submitted through `add_product` is stored truncated to
its first 10,000 characters plus the marker, and `get_product_by_id`
returns the truncated value. -/
theorem C6_sanitization_amended :
    (∀ (fs : PyDict) (k : String) (v : PyVal), ¬ k = "_id" →
        alistGet fs k = some v →
        alistGet (cleanData fs) k = some (cleanValue v))
    ∧ (∀ s : String, cleanValue (.str s) = .str (truncateAt 10000 s))
    ∧ (∀ xs : List PyVal, cleanValue (.list xs) = .list ((xs.take 1000).map elemClean)
        ∧ ((xs.take 1000).map elemClean).length ≤ 1000)
    ∧ (∀ (attrs : List PyVal) (name v : String),
        alistGet (buildFlatAttributes attrs []) name = some v →
        v.length ≤ 1003 ∧ ∃ s, v = truncateAt 1000 s)
    ∧ (∀ (store : List (String × PyDict)) (d : PyDict) (i k s genId : String),
        alistGet d "_id" = some (.str i) → ¬ i = "" →
        alistGet d k = some (.str s) → ¬ k = "_id" → ¬ k = "flat_attributes" →
        10000 < s.length →
        (add_product true genId store d).1 = true
        ∧ get_product_by_id true (add_product true genId store d).2 i
            = some (_prepare_product_data d)
        ∧ alistGet (_prepare_product_data d) k
            = some (.str (strTake s 10000 ++ "..."))) := by
  refine ⟨?_, ?_, ?_, ?_, ?_⟩
  · intro fs k v hk hv
    rw [alistGet_cleanData _ _ hk, hv]
    rfl
  · intro s
    unfold cleanValue truncateAt strTake
    split <;> rfl
  · intro xs
    refine ⟨?_, ?_⟩
    · unfold cleanValue
      rw [cleanElems_eq]
    · rw [List.length_map]
      exact List.length_take_le 1000 xs
  · intro attrs name v hv
    rcases buildFlat_value attrs [] name v hv with h' | ⟨a, ha, he⟩
    · exact absurd h' (by simp [alistGet])
    · rcases attrEntry_value_shape a name v he with ⟨s, hs⟩
      refine ⟨?_, s, hs⟩
      rw [hs]
      exact truncateAt_length_le 1000 s
  · intro store d i k s genId hid hine hk hkid hkfa hlen
    have hext : extract_document_id d = some (.str i) := by
      unfold extract_document_id
      rw [hid]
    have hadd : add_product true genId store d
        = (true, alistSet store i (_prepare_product_data d)) := by
      unfold add_product
      rw [hext]
      rfl
    refine ⟨by rw [hadd], ?_, ?_⟩
    · rw [hadd]
      unfold get_product_by_id
      have hine' : (i == "") = false := by
        simp [hine]
      simp only [ensure_connection, if_true, hine', Bool.false_eq_true, if_false]
      exact alistGet_alistSet_self store i (_prepare_product_data d)
    · rw [alistGet_prepare_ne d k hkid hkfa, hk, Option.map_some']
      have hcv : cleanValue (.str s) = .str (strTake s 10000 ++ "...") := by
        unfold cleanValue
        rw [if_pos hlen]
      rw [hcv]
      rfl

/-- C6 witness: a concrete document with a 12,000-character `title` stored
through `add_product` — the amended statement applies and reports success. -/
theorem C6_sanitization_witness :
    (add_product true "g" []
      [("_id", PyVal.str "p1"), ("title", PyVal.str longA)]).1 = true := by
  have hlen : longA.length = 12000 := List.length_replicate 12000 'a'
  exact (C6_sanitization_amended.2.2.2.2 []
    [("_id", PyVal.str "p1"), ("title", PyVal.str longA)]
    "p1" "title" longA "g" rfl (by decide) rfl (by decide) (by decide)
    (by rw [hlen]; omega)).1
